import Mathlib

/-!
Shallow embedding of the `0sc/library` repository: the bolt-backed
nested-bucket store, the rating attachment (`src/rating/rateable.go`)
and the comment attachment (the `commentable` implementation bundled in
`src/comment/service_test.go`).

The store is modelled as an association-list tree mirroring bolt buckets:
a bucket maps byte-string keys to either stored values or nested buckets.
`db.Update` is modelled by running the transaction body on the state and
rolling back (returning the input state unchanged) when the body errors,
exactly bolt's all-or-nothing transaction semantics.  `db.View` is a pure
read.  Go `int` is 64-bit, so counter addition wraps modulo 2^64.
JSON encode/decode is modelled by a tagged value type: `json.Marshal`
of a rating or comment struct always succeeds, and `json.Unmarshal` of
data this program marshalled always succeeds, so encoding is an injection
and decoding is total (Go's lenient decoder yields the zero struct when
pointed at JSON of the other shape).
-/

/-- The five signed 64-bit counters of `type rating` in the source. -/
structure rating where
  fiveStars : Int
  fourStars : Int
  threeStars : Int
  twoStars : Int
  oneStars : Int
  deriving DecidableEq, Repr

/-- A comment entity: identifier and text value. -/
structure comment where
  id : String
  value : String
  deriving DecidableEq, Repr

/-- A stored byte-string value, tagged by which struct was marshalled into it. -/
inductive Data where
  | ratingData (r : rating)
  | commentData (c : comment)
  deriving DecidableEq, Repr

/-- A bolt bucket entry: either a plain value or a nested bucket. -/
inductive BTree where
  | leaf (d : Data)
  | node (entries : List (String × BTree))

/-- The keyed entries of one bucket (bolt keeps keys unique; our reachable
states do too, since every write goes through `setKey`/`delKey`). -/
abbrev Entries := List (String × BTree)

/-- Errors of the store and of the two services, one constructor per
`fmt.Errorf` site or bolt sentinel error. -/
inductive Err where
  | bucketNameRequired
  | keyRequired
  | incompatibleValue
  | rateableTypeNotFound (kind : String)
  | rateableNotFound (kind key : String)
  | resourceDoesNotExist (kind : String)
  | commentableTypeNotFound (kind : String)
  | commentableNotFound (a b : String)
  | commentNotFound (cKey kind key : String)
  | removeCommentNotFound (cKey kind key : String)
  | commentsSetupFailed (kind key : String)
  | commentEmpty
  | unmarshalFailed
  deriving DecidableEq, Repr

/-- First entry stored under a key, bolt's unique-key lookup. -/
def lookupKey : Entries → String → Option BTree
  | [], _ => none
  | (k, t) :: rest, key => if k = key then some t else lookupKey rest key

/-- Replace the entry under a key, or append it if absent. -/
def setKey : Entries → String → BTree → Entries
  | [], key, v => [(key, v)]
  | (k, t) :: rest, key, v =>
    if k = key then (key, v) :: rest else (k, t) :: setKey rest key v

/-- Drop the entry under a key (no-op when absent). -/
def delKey : Entries → String → Entries
  | [], _ => []
  | (k, t) :: rest, key => if k = key then rest else (k, t) :: delKey rest key

/-- bolt `Bucket(name)`: the nested bucket, or `none` when the key is
absent or holds a plain value. -/
def getBucket (es : Entries) (name : String) : Option Entries :=
  match lookupKey es name with
  | some (BTree.node cs) => some cs
  | _ => none

/-- bolt `Get(key)`: the stored value, or `none` when the key is absent
or holds a nested bucket. -/
def getData (es : Entries) (key : String) : Option Data :=
  match lookupKey es key with
  | some (BTree.leaf d) => some d
  | _ => none

/-- bolt `CreateBucketIfNotExists(name)`: empty names are rejected, a key
holding a value is incompatible, otherwise the existing or a fresh empty
bucket is returned together with the updated parent. -/
def createBucketIfNotExists (es : Entries) (name : String) :
    Except Err (Entries × Entries) :=
  if name = "" then Except.error Err.bucketNameRequired
  else
    match lookupKey es name with
    | some (BTree.node cs) => Except.ok (es, cs)
    | some (BTree.leaf _) => Except.error Err.incompatibleValue
    | none => Except.ok (setKey es name (BTree.node []), [])

/-- bolt `Put(key, data)`: empty keys are rejected, a key holding a
bucket is incompatible, otherwise the value is stored, overwriting any
prior value under the key. -/
def putData (es : Entries) (key : String) (d : Data) : Except Err Entries :=
  if key = "" then Except.error Err.keyRequired
  else
    match lookupKey es key with
    | some (BTree.node _) => Except.error Err.incompatibleValue
    | _ => Except.ok (setKey es key (BTree.leaf d))

/-- bolt `Delete(key)`: a key holding a bucket is incompatible, deleting
an absent key succeeds. -/
def deleteKey (es : Entries) (key : String) : Except Err Entries :=
  match lookupKey es key with
  | some (BTree.node _) => Except.error Err.incompatibleValue
  | _ => Except.ok (delKey es key)

/-- Go `int` is 64-bit: wrap a mathematical integer into `[-2^63, 2^63)`. -/
def wrap64 (x : Int) : Int := (x + 2 ^ 63) % 2 ^ 64 - 2 ^ 63

/-- `(*rating).add`: component-wise 64-bit addition of the delta. -/
def rating.add (r rt : rating) : rating where
  fiveStars := wrap64 (r.fiveStars + rt.fiveStars)
  fourStars := wrap64 (r.fourStars + rt.fourStars)
  threeStars := wrap64 (r.threeStars + rt.threeStars)
  twoStars := wrap64 (r.twoStars + rt.twoStars)
  oneStars := wrap64 (r.oneStars + rt.oneStars)

/-- `(*rating).ensureNotNegative`: clamp each counter up to 0. -/
def rating.ensureNotNegative (r : rating) : rating where
  fiveStars := if r.fiveStars < 0 then 0 else r.fiveStars
  fourStars := if r.fourStars < 0 then 0 else r.fourStars
  threeStars := if r.threeStars < 0 then 0 else r.threeStars
  twoStars := if r.twoStars < 0 then 0 else r.twoStars
  oneStars := if r.oneStars < 0 then 0 else r.oneStars

/-- The zero value `rating{}`. -/
def rating.zero : rating := ⟨0, 0, 0, 0, 0⟩

/-- `json.Unmarshal` into a `rating`: data marshalled from a rating
decodes to it; JSON of a comment has none of the star fields, so Go's
lenient decoder leaves the zero struct. -/
def decodeRating : Data → rating
  | Data.ratingData r => r
  | Data.commentData _ => rating.zero

/-- `json.Unmarshal` into a `comment`: symmetric to `decodeRating`. -/
def decodeComment : Data → comment
  | Data.commentData c => c
  | Data.ratingData _ => ⟨"", ""⟩

/-- The fixed record key `ratings` of the rating attachment. -/
def ratingsKey : String := "ratings"

/-- The fixed sub-bucket name `comments` of the comment attachment. -/
def commentsKey : String := "comments"

/-- `setup`'s loop body: `CreateBucketIfNotExists` for each name in turn,
all inside one transaction. -/
def setupLoop : Entries → List String → Except Err Entries
  | root, [] => Except.ok root
  | root, b :: rest =>
    match createBucketIfNotExists root b with
    | Except.error e => Except.error e
    | Except.ok (root2, _) => setupLoop root2 rest

/-- `setup(db, cmts)`: one `db.Update` running the creation loop; on any
error the whole transaction rolls back and the store is unchanged. -/
def setup (root : Entries) (cmts : List String) : Entries × Option Err :=
  match setupLoop root cmts with
  | Except.ok root2 => (root2, none)
  | Except.error e => (root, some e)

/-- `verify(db, kind)`: whether the top-level bucket for `kind` exists. -/
def verify (root : Entries) (kind : String) : Bool :=
  (getBucket root kind).isSome

/-- The `rateable` addressing tuple (the `db` handle is the threaded store). -/
structure rateable where
  kind : String
  key : String

/-- `(*rateable).save`: inside one read-write transaction, locate the
resource-type bucket, create-if-absent the instance bucket, read and
decode the current record (absent reads as zero), merge then clamp,
marshal and put.  Returns the updated store (unchanged on rollback),
the Go `*rating` result pointer, and the error. -/
def rateable.save (r : rateable) (rt : rating) (root : Entries) :
    Entries × Option rating × Option Err :=
  match getBucket root r.kind with
  | none => (root, none, some (Err.rateableTypeNotFound r.kind))
  | some rtBucket =>
    match createBucketIfNotExists rtBucket r.key with
    | Except.error e => (root, none, some e)
    | Except.ok (rtBucket2, rBucket) =>
      let currentRating :=
        match getData rBucket ratingsKey with
        | some d => decodeRating d
        | none => rating.zero
      let newRating := (currentRating.add rt).ensureNotNegative
      match putData rBucket ratingsKey (Data.ratingData newRating) with
      | Except.error e => (root, some newRating, some e)
      | Except.ok rBucket2 =>
        (setKey root r.kind (BTree.node (setKey rtBucket2 r.key (BTree.node rBucket2))),
          some newRating, none)

/-- `(*rateable).get`: read-only; missing type or instance bucket is an
error, an absent record yields the zero rating. -/
def rateable.get (r : rateable) (root : Entries) : Option rating × Option Err :=
  match getBucket root r.kind with
  | none => (none, some (Err.rateableTypeNotFound r.kind))
  | some rtBucket =>
    match getBucket rtBucket r.key with
    | none => (none, some (Err.rateableNotFound r.kind r.key))
    | some rBucket =>
      match getData rBucket ratingsKey with
      | none => (some rating.zero, none)
      | some d => (some (decodeRating d), none)

/-- The `commentable` addressing tuple. -/
structure commentable where
  kind : String
  key : String

/-- `(*commentable).ensure`: create-if-absent the instance bucket under
an existing resource-type bucket. -/
def commentable.ensure (cm : commentable) (root : Entries) :
    Entries × Option Err :=
  match getBucket root cm.kind with
  | none => (root, some (Err.resourceDoesNotExist cm.kind))
  | some bucket =>
    match createBucketIfNotExists bucket cm.key with
    | Except.error e => (root, some e)
    | Except.ok (bucket2, _) => (setKey root cm.kind (BTree.node bucket2), none)

/-- `(*commentable).exists`: both the type bucket and the instance bucket
are present. -/
def commentable.existsRes (cm : commentable) (root : Entries) : Bool :=
  match getBucket root cm.kind with
  | none => false
  | some bucket => (getBucket bucket cm.key).isSome

/-- `(*commentable).save`: a nil comment is rejected; inside one
read-write transaction locate the type and instance buckets,
create-if-absent the `comments` sub-bucket, marshal the entity and put
it keyed by its id (overwriting).  On error the Go code clears the
returned pointer and the transaction rolls back. -/
def commentable.save (cm : commentable) (c : Option comment) (root : Entries) :
    Entries × Option comment × Option Err :=
  match c with
  | none => (root, none, some Err.commentEmpty)
  | some c0 =>
    match getBucket root cm.kind with
    | none => (root, none, some (Err.commentableTypeNotFound cm.kind))
    | some cmBucket =>
      match getBucket cmBucket cm.key with
      | none => (root, none, some (Err.commentableNotFound cm.key cm.kind))
      | some rBucket =>
        match createBucketIfNotExists rBucket commentsKey with
        | Except.error _ => (root, none, some (Err.commentsSetupFailed cm.kind cm.key))
        | Except.ok (rBucket2, comments) =>
          match putData comments c0.id (Data.commentData c0) with
          | Except.error e => (root, none, some e)
          | Except.ok comments2 =>
            (setKey root cm.kind (BTree.node (setKey cmBucket cm.key
                (BTree.node (setKey rBucket2 commentsKey (BTree.node comments2))))),
              some c0, none)

/-- `(*commentable).add`: a nil comment is rejected, otherwise a fresh
globally-unique id (`betterguid.New()`, modelled by the explicit `newId`
argument: the generator returns a 20-character, hence non-empty, string)
is assigned and the entity is delegated to `save`. -/
def commentable.add (cm : commentable) (newId : String) (c : Option comment)
    (root : Entries) : Entries × Option comment × Option Err :=
  match c with
  | none => (root, none, some Err.commentEmpty)
  | some c0 => cm.save (some { c0 with id := newId }) root

/-- The `ForEach` body of `list`: decode each stored entry in bucket
order; hitting a nested bucket (whose value bytes are nil) makes
`json.Unmarshal` fail and stops the iteration with the comments decoded
so far. -/
def decodeLoop : List comment → Entries → List comment × Option Err
  | acc, [] => (acc, none)
  | acc, (_, BTree.leaf d) :: rest => decodeLoop (acc ++ [decodeComment d]) rest
  | acc, (_, BTree.node _) :: _ => (acc, some Err.unmarshalFailed)

/-- `(*commentable).list`: read-only; missing type or instance bucket is
an error, an absent `comments` sub-bucket yields the empty list. -/
def commentable.list (cm : commentable) (root : Entries) :
    Option (List comment) × Option Err :=
  match getBucket root cm.kind with
  | none => (none, some (Err.commentableTypeNotFound cm.kind))
  | some cmBucket =>
    match getBucket cmBucket cm.key with
    | none => (none, some (Err.commentableNotFound cm.key cm.kind))
    | some rBucket =>
      match getBucket rBucket commentsKey with
      | none => (some [], none)
      | some komments =>
        match decodeLoop [] komments with
        | (cs, none) => (some cs, none)
        | (cs, some e) => (some cs, some e)

/-- `(*commentable).get`: read-only; an absent `comments` sub-bucket or
an absent id both fail with the comment-not-found error. -/
def commentable.get (cm : commentable) (cKey : String) (root : Entries) :
    Option comment × Option Err :=
  match getBucket root cm.kind with
  | none => (none, some (Err.commentableTypeNotFound cm.kind))
  | some cmBucket =>
    match getBucket cmBucket cm.key with
    | none => (none, some (Err.commentableNotFound cm.kind cm.key))
    | some rBucket =>
      match getBucket rBucket commentsKey with
      | none => (none, some (Err.commentNotFound cKey cm.kind cm.key))
      | some comments =>
        match getData comments cKey with
        | none => (none, some (Err.commentNotFound cKey cm.kind cm.key))
        | some d => (some (decodeComment d), none)

/-- `(*commentable).remove`: inside one read-write transaction resolve
the three buckets (an absent `comments` sub-bucket is a not-found error)
and delete the entry by id; deleting an absent id succeeds. -/
def commentable.remove (cm : commentable) (cKey : String) (root : Entries) :
    Entries × Option Err :=
  match getBucket root cm.kind with
  | none => (root, some (Err.commentableTypeNotFound cm.kind))
  | some cmBucket =>
    match getBucket cmBucket cm.key with
    | none => (root, some (Err.commentableNotFound cm.key cm.kind))
    | some rBucket =>
      match getBucket rBucket commentsKey with
      | none => (root, some (Err.removeCommentNotFound cKey cm.kind cm.key))
      | some comments =>
        match deleteKey comments cKey with
        | Except.error e => (root, some e)
        | Except.ok comments2 =>
          (setKey root cm.kind (BTree.node (setKey cmBucket cm.key
              (BTree.node (setKey rBucket commentsKey (BTree.node comments2))))),
            none)

/-! ## Observations on store states -/

/-- The keys of a bucket, in order. -/
def keysOf (es : Entries) : List String := es.map Prod.fst

/-- The encoded ratings record of a resource instance, when present. -/
def ratingRecAt (root : Entries) (kind key : String) : Option Data :=
  match getBucket root kind with
  | none => none
  | some ktBucket =>
    match getBucket ktBucket key with
    | none => none
    | some rBucket => getData rBucket ratingsKey

/-- The encoded comment entry stored under `id` for a resource instance,
when present. -/
def commentAt (root : Entries) (kind key id : String) : Option Data :=
  match getBucket root kind with
  | none => none
  | some ktBucket =>
    match getBucket ktBucket key with
    | none => none
    | some rBucket =>
      match getBucket rBucket commentsKey with
      | none => none
      | some comments => getData comments id

/-- All five counters are non-negative. -/
def ratingNonneg (r : rating) : Prop :=
  0 ≤ r.fiveStars ∧ 0 ≤ r.fourStars ∧ 0 ≤ r.threeStars ∧
    0 ≤ r.twoStars ∧ 0 ≤ r.oneStars

instance (r : rating) : Decidable (ratingNonneg r) := by
  unfold ratingNonneg; infer_instance

/-! ## Association-list lemmas -/

theorem lookup_eq_none_of_not_mem (es : Entries) (k : String)
    (h : k ∉ keysOf es) : lookupKey es k = none := by
  induction es with
  | nil => rfl
  | cons p rest ih =>
    obtain ⟨k0, t0⟩ := p
    simp only [keysOf, List.map_cons, List.mem_cons, not_or] at h
    simp only [lookupKey, if_neg (fun hh : k0 = k => h.1 hh.symm)]
    exact ih (by simpa [keysOf] using h.2)

theorem lookup_setKey_self (es : Entries) (k : String) (v : BTree) :
    lookupKey (setKey es k v) k = some v := by
  induction es with
  | nil => simp [setKey, lookupKey]
  | cons p rest ih =>
    obtain ⟨k0, t0⟩ := p
    by_cases h : k0 = k
    · simp [setKey, h, lookupKey]
    · simp only [setKey, if_neg h, lookupKey]
      exact ih

theorem lookup_setKey_ne (es : Entries) {k k' : String} (v : BTree)
    (h : k' ≠ k) : lookupKey (setKey es k v) k' = lookupKey es k' := by
  have h2 : ¬(k = k') := fun hh => h hh.symm
  induction es with
  | nil => simp [setKey, lookupKey, h2]
  | cons p rest ih =>
    obtain ⟨k0, t0⟩ := p
    by_cases h0 : k0 = k
    · subst h0
      simp [setKey, lookupKey, h2]
    · simp only [setKey, if_neg h0, lookupKey]
      by_cases h1 : k0 = k' <;> simp [h1, ih]

theorem lookup_delKey_ne (es : Entries) {k k' : String}
    (h : k' ≠ k) : lookupKey (delKey es k) k' = lookupKey es k' := by
  have h2 : ¬(k = k') := fun hh => h hh.symm
  induction es with
  | nil => simp [delKey]
  | cons p rest ih =>
    obtain ⟨k0, t0⟩ := p
    by_cases h0 : k0 = k
    · subst h0
      simp [delKey, lookupKey, h2]
    · simp only [delKey, if_neg h0, lookupKey]
      by_cases h1 : k0 = k' <;> simp [h1, ih]

theorem lookup_delKey_self (es : Entries) (k : String)
    (hnd : (keysOf es).Nodup) : lookupKey (delKey es k) k = none := by
  induction es with
  | nil => rfl
  | cons p rest ih =>
    obtain ⟨k0, t0⟩ := p
    simp only [keysOf, List.map_cons, List.nodup_cons] at hnd
    by_cases h0 : k0 = k
    · subst h0
      simp only [delKey, if_pos rfl]
      exact lookup_eq_none_of_not_mem rest k0 (by simpa [keysOf] using hnd.1)
    · simp only [delKey, if_neg h0, lookupKey, if_neg h0]
      exact ih hnd.2

theorem getBucket_setKey_self (es : Entries) (k : String) (cs : Entries) :
    getBucket (setKey es k (BTree.node cs)) k = some cs := by
  simp [getBucket, lookup_setKey_self]

theorem getBucket_setKey_ne (es : Entries) {k k' : String} (v : BTree)
    (h : k' ≠ k) : getBucket (setKey es k v) k' = getBucket es k' := by
  simp [getBucket, lookup_setKey_ne es v h]

theorem getData_setKey_leaf_self (es : Entries) (k : String) (d : Data) :
    getData (setKey es k (BTree.leaf d)) k = some d := by
  simp [getData, lookup_setKey_self]

theorem getData_setKey_ne (es : Entries) {k k' : String} (v : BTree)
    (h : k' ≠ k) : getData (setKey es k v) k' = getData es k' := by
  simp [getData, lookup_setKey_ne es v h]

theorem getData_delKey_ne (es : Entries) {k k' : String}
    (h : k' ≠ k) : getData (delKey es k) k' = getData es k' := by
  simp [getData, lookup_delKey_ne es h]

/-- `ensureNotNegative` always yields non-negative counters. -/
theorem ensureNotNegative_nonneg (r : rating) :
    ratingNonneg r.ensureNotNegative := by
  unfold ratingNonneg rating.ensureNotNegative
  refine ⟨?_, ?_, ?_, ?_, ?_⟩ <;> dsimp only <;> split <;> omega

/-! ## The merge-then-clamp sequence (claim C1 machinery) -/

/-- One merge step as `save` performs it: add, then clamp immediately. -/
def clampStep (s d : rating) : rating := (s.add d).ensureNotNegative

/-- The running results of merging a delta sequence, one clamp after each
merge. -/
def clampScan : rating → List rating → List rating
  | _, [] => []
  | s, d :: ds => clampStep s d :: clampScan (clampStep s d) ds

/-- The final aggregate after merging a delta sequence. -/
def clampFold (s : rating) (ds : List rating) : rating := ds.foldl clampStep s

/-- The instance bucket state `save` meets when no record is stored yet:
the instance is absent, or present with nothing under the `ratings` key. -/
def freshInstance (ktBucket : Entries) (key : String) : Bool :=
  match lookupKey ktBucket key with
  | none => true
  | some (BTree.node rBucket) => (lookupKey rBucket ratingsKey).isNone
  | some (BTree.leaf _) => false

/-- The store holds exactly the aggregate `s` as the record of the
instance `(kind, key)`. -/
def goodInstance (root : Entries) (kind key : String) (s : rating) : Prop :=
  ∃ ktBucket rBucket, getBucket root kind = some ktBucket ∧
    getBucket ktBucket key = some rBucket ∧
    lookupKey rBucket ratingsKey = some (BTree.leaf (Data.ratingData s))

/-- Apply a sequence of `save` calls, collecting the returned aggregates;
stop at the first error. -/
def saveSeq (r : rateable) : Entries → List rating → Entries × List rating × Option Err
  | root, [] => (root, [], none)
  | root, d :: ds =>
    match rateable.save r d root with
    | (root2, some nr, none) =>
      match saveSeq r root2 ds with
      | (root3, rs, e) => (root3, nr :: rs, e)
    | (root2, _, some e) => (root2, [], some e)
    | (root2, none, none) => (root2, [], none)

theorem getBucket_eq_some_iff (es : Entries) (k : String) (cs : Entries) :
    getBucket es k = some cs ↔ lookupKey es k = some (BTree.node cs) := by
  unfold getBucket
  cases h : lookupKey es k with
  | none => simp
  | some t => cases t <;> simp

theorem ratingsKey_ne_empty : ratingsKey ≠ "" := by decide

/-- A `save` against a store already holding the aggregate `s` returns the
clamped merge and leaves the store holding it. -/
theorem save_from_good (r : rateable) (d : rating) (root : Entries) (s : rating)
    (hkey : r.key ≠ "") (hg : goodInstance root r.kind r.key s) :
    ∃ root2, rateable.save r d root = (root2, some (clampStep s d), none) ∧
      goodInstance root2 r.kind r.key (clampStep s d) := by
  obtain ⟨ktBucket, rBucket, h1, h2, h3⟩ := hg
  have hcb : createBucketIfNotExists ktBucket r.key = Except.ok (ktBucket, rBucket) := by
    unfold createBucketIfNotExists
    rw [if_neg hkey, (getBucket_eq_some_iff _ _ _).mp h2]
  have hgd : getData rBucket ratingsKey = some (Data.ratingData s) := by
    unfold getData; rw [h3]
  have hput : putData rBucket ratingsKey (Data.ratingData ((s.add d).ensureNotNegative)) =
      Except.ok (setKey rBucket ratingsKey
        (BTree.leaf (Data.ratingData ((s.add d).ensureNotNegative)))) := by
    unfold putData; rw [if_neg ratingsKey_ne_empty, h3]
  refine ⟨setKey root r.kind (BTree.node (setKey ktBucket r.key (BTree.node
      (setKey rBucket ratingsKey (BTree.leaf (Data.ratingData (clampStep s d))))))),
    ?_, ?_⟩
  · simp only [rateable.save, h1, hcb, hgd, decodeRating, clampStep, hput]
  · exact ⟨_, _, getBucket_setKey_self _ _ _,
      (getBucket_eq_some_iff _ _ _).mpr (lookup_setKey_self _ _ _),
      lookup_setKey_self _ _ _⟩

/-- The first `save` against an instance with no stored record merges into
the zero aggregate and leaves the store holding the clamped result. -/
theorem save_from_fresh (r : rateable) (d : rating) (root ktBucket : Entries)
    (hkind : getBucket root r.kind = some ktBucket)
    (hfresh : freshInstance ktBucket r.key = true)
    (hkey : r.key ≠ "") :
    ∃ root2, rateable.save r d root = (root2, some (clampStep rating.zero d), none) ∧
      goodInstance root2 r.kind r.key (clampStep rating.zero d) := by
  unfold freshInstance at hfresh
  cases hl : lookupKey ktBucket r.key with
  | none =>
    have hcb : createBucketIfNotExists ktBucket r.key =
        Except.ok (setKey ktBucket r.key (BTree.node []), []) := by
      unfold createBucketIfNotExists
      rw [if_neg hkey, hl]
    have hgd : getData ([] : Entries) ratingsKey = none := rfl
    have hput : putData ([] : Entries) ratingsKey
        (Data.ratingData ((rating.zero.add d).ensureNotNegative)) =
        Except.ok [(ratingsKey,
          BTree.leaf (Data.ratingData ((rating.zero.add d).ensureNotNegative)))] := by
      unfold putData
      rw [if_neg ratingsKey_ne_empty]
      rfl
    refine ⟨setKey root r.kind (BTree.node (setKey (setKey ktBucket r.key (BTree.node []))
        r.key (BTree.node [(ratingsKey,
          BTree.leaf (Data.ratingData (clampStep rating.zero d)))]))), ?_, ?_⟩
    · simp only [rateable.save, hkind, hcb, hgd, decodeRating, clampStep, hput]
    · refine ⟨_, _, getBucket_setKey_self _ _ _,
        (getBucket_eq_some_iff _ _ _).mpr (lookup_setKey_self _ _ _), ?_⟩
      simp [lookupKey]
  | some t =>
    cases t with
    | leaf d0 => rw [hl] at hfresh; simp at hfresh
    | node rBucket =>
      rw [hl] at hfresh
      simp only [Option.isNone_iff_eq_none] at hfresh
      have hcb : createBucketIfNotExists ktBucket r.key = Except.ok (ktBucket, rBucket) := by
        unfold createBucketIfNotExists
        rw [if_neg hkey, hl]
      have hgd : getData rBucket ratingsKey = none := by
        unfold getData; rw [hfresh]
      have hput : putData rBucket ratingsKey
          (Data.ratingData ((rating.zero.add d).ensureNotNegative)) =
          Except.ok (setKey rBucket ratingsKey
            (BTree.leaf (Data.ratingData ((rating.zero.add d).ensureNotNegative)))) := by
        unfold putData; rw [if_neg ratingsKey_ne_empty, hfresh]
      refine ⟨setKey root r.kind (BTree.node (setKey ktBucket r.key (BTree.node
          (setKey rBucket ratingsKey
            (BTree.leaf (Data.ratingData (clampStep rating.zero d))))))), ?_, ?_⟩
      · simp only [rateable.save, hkind, hcb, hgd, decodeRating, clampStep, hput]
      · exact ⟨_, _, getBucket_setKey_self _ _ _,
          (getBucket_eq_some_iff _ _ _).mpr (lookup_setKey_self _ _ _),
          lookup_setKey_self _ _ _⟩

/-- Iterating `save` from a store holding `s`: every step succeeds, the
returned aggregates are the clamp-after-each-merge scan, and the store
finishes holding the fold. -/
theorem saveSeq_good (r : rateable) (hkey : r.key ≠ "") :
    ∀ (ds : List rating) (root : Entries) (s : rating),
      goodInstance root r.kind r.key s →
      (saveSeq r root ds).2.2 = none ∧
      (saveSeq r root ds).2.1 = clampScan s ds ∧
      goodInstance (saveSeq r root ds).1 r.kind r.key (clampFold s ds) := by
  intro ds
  induction ds with
  | nil => intro root s hg; exact ⟨rfl, rfl, hg⟩
  | cons d ds ih =>
    intro root s hg
    obtain ⟨root2, hsave, hg2⟩ := save_from_good r d root s hkey hg
    obtain ⟨he, hrs, hgf⟩ := ih root2 (clampStep s d) hg2
    simp only [saveSeq, hsave]
    cases hseq : saveSeq r root2 ds with
    | mk root3 p =>
      cases p with
      | mk rs e =>
        rw [hseq] at he hrs hgf
        simp only at he hrs hgf
        simp only [clampScan, clampFold, List.foldl_cons]
        exact ⟨he, by rw [hrs], hgf⟩

/-- Every aggregate in the scan is non-negative in all five counters. -/
theorem clampScan_nonneg : ∀ (ds : List rating) (s : rating),
    ∀ x ∈ clampScan s ds, ratingNonneg x := by
  intro ds
  induction ds with
  | nil => intro s x hx; simp [clampScan] at hx
  | cons d ds ih =>
    intro s x hx
    simp only [clampScan, List.mem_cons] at hx
    cases hx with
    | inl h => rw [h]; exact ensureNotNegative_nonneg _
    | inr h => exact ih (clampStep s d) x h

theorem goodInstance_ratingRecAt (root : Entries) (kind key : String) (s : rating)
    (hg : goodInstance root kind key s) :
    ratingRecAt root kind key = some (Data.ratingData s) := by
  obtain ⟨ktBucket, rBucket, h1, h2, h3⟩ := hg
  simp only [ratingRecAt, h1, h2, getData, h3]

/-- **C1.** For every sequence of merge deltas applied through
`(*rateable).save` to an instance that starts with no stored record,
every save succeeds, the returned aggregates are exactly the
clamp-after-each-merge scan from the zero aggregate (each result is the
previously stored aggregate plus the delta, component-wise in 64-bit
arithmetic, with the floor of 0 re-applied immediately after that
merge), every counter of every returned aggregate is non-negative, and
the persisted record always holds the latest result.  Since the theorem
quantifies over all delta sequences, it applies to every prefix, so the
record after the i-th merge is the i-th returned aggregate. -/
theorem save_sequence_merge_then_clamp (r : rateable) (root ktBucket : Entries)
    (ds : List rating)
    (hkind : getBucket root r.kind = some ktBucket)
    (hfresh : freshInstance ktBucket r.key = true)
    (hkey : r.key ≠ "") :
    (saveSeq r root ds).2.2 = none ∧
    (saveSeq r root ds).2.1 = clampScan rating.zero ds ∧
    (∀ x ∈ (saveSeq r root ds).2.1, ratingNonneg x) ∧
    (ds ≠ [] → ratingRecAt (saveSeq r root ds).1 r.kind r.key =
      some (Data.ratingData (clampFold rating.zero ds))) := by
  cases ds with
  | nil =>
    refine ⟨rfl, rfl, ?_, ?_⟩
    · intro x hx; simp [saveSeq] at hx
    · intro h; exact absurd rfl h
  | cons d ds2 =>
    obtain ⟨root2, hsave, hg2⟩ := save_from_fresh r d root ktBucket hkind hfresh hkey
    obtain ⟨he, hrs, hgf⟩ := saveSeq_good r hkey ds2 root2 (clampStep rating.zero d) hg2
    simp only [saveSeq, hsave]
    cases hseq : saveSeq r root2 ds2 with
    | mk root3 p =>
      cases p with
      | mk rs e =>
        rw [hseq] at he hrs hgf
        simp only at he hrs hgf
        refine ⟨he, ?_, ?_, ?_⟩
        · simp only [clampScan]; rw [hrs]
        · intro x hx
          simp only [List.mem_cons] at hx
          cases hx with
          | inl h => rw [h]; exact ensureNotNegative_nonneg _
          | inr h =>
            rw [hrs] at h
            exact clampScan_nonneg ds2 (clampStep rating.zero d) x h
        · intro _
          have := goodInstance_ratingRecAt root3 r.kind r.key
            (clampFold (clampStep rating.zero d) ds2) hgf
          simpa only [clampFold, List.foldl_cons] using this

/-- Witness for C1: type container `books` provisioned, fresh instance
`b1`; merging `-10` five-star then `+3` five-star returns `0` then `3`
(never a banked deficit). -/
theorem save_sequence_merge_then_clamp_witness :
    getBucket [("books", BTree.node [])] "books" = some [] ∧
    freshInstance [] "b1" = true ∧
    ("b1" : String) ≠ "" ∧
    (saveSeq ⟨"books", "b1"⟩ [("books", BTree.node [])]
      [⟨-10, 0, 0, 0, 0⟩, ⟨3, 0, 0, 0, 0⟩]).2.1 =
      [⟨0, 0, 0, 0, 0⟩, ⟨3, 0, 0, 0, 0⟩] := by
  refine ⟨rfl, rfl, by decide, ?_⟩
  have h := save_sequence_merge_then_clamp ⟨"books", "b1"⟩
    [("books", BTree.node [])] [] [⟨-10, 0, 0, 0, 0⟩, ⟨3, 0, 0, 0, 0⟩]
    rfl rfl (by decide)
  rw [h.2.1]
  decide

/-! ## Helper observations for the comment attachment -/

/-- The key holds a plain value (not a bucket, not absent). -/
def isLeafAt (es : Entries) (k : String) : Bool :=
  match lookupKey es k with
  | some (BTree.leaf _) => true
  | _ => false

/-- The key holds a nested bucket. -/
def isNodeAt (es : Entries) (k : String) : Bool :=
  match lookupKey es k with
  | some (BTree.node _) => true
  | _ => false

/-- Inside the instance bucket, the slot for `id` in the `comments`
sub-bucket is occupied by a nested bucket (the only state in which
bolt's `Put` would refuse the write). -/
def commentSlotBucket (rBucket : Entries) (id : String) : Bool :=
  match getBucket rBucket commentsKey with
  | some cs => isNodeAt cs id
  | none => false

theorem commentsKey_ne_empty : commentsKey ≠ "" := by decide

/-- **C6.** `(*rateable).get` on an instance whose type and instance
buckets exist but which holds no `ratings` record returns the all-zero
aggregate and no error. -/
theorem get_no_record_returns_zero (r : rateable) (root ktBucket rBucket : Entries)
    (hkind : getBucket root r.kind = some ktBucket)
    (hkey : getBucket ktBucket r.key = some rBucket)
    (hrec : getData rBucket ratingsKey = none) :
    rateable.get r root = (some rating.zero, none) := by
  simp only [rateable.get, hkind, hkey, hrec]

/-- Witness for C6 at a concrete store. -/
theorem get_no_record_returns_zero_witness :
    getBucket [("posts", BTree.node [("k", BTree.node [])])] "posts" =
      some [("k", BTree.node [])] ∧
    getBucket [("k", BTree.node [])] "k" = some [] ∧
    getData [] ratingsKey = none ∧
    rateable.get ⟨"posts", "k"⟩ [("posts", BTree.node [("k", BTree.node [])])] =
      (some rating.zero, none) :=
  ⟨rfl, rfl, rfl, get_no_record_returns_zero ⟨"posts", "k"⟩ _ _ _ rfl rfl rfl⟩

/-- **C9.** `(*commentable).list` on an instance whose type and instance
buckets exist but whose `comments` sub-bucket is absent returns the
empty sequence and no error. -/
theorem list_no_comments_returns_empty (cm : commentable) (root cmBucket rBucket : Entries)
    (h1 : getBucket root cm.kind = some cmBucket)
    (h2 : getBucket cmBucket cm.key = some rBucket)
    (h3 : getBucket rBucket commentsKey = none) :
    commentable.list cm root = (some [], none) := by
  simp only [commentable.list, h1, h2, h3]

/-- Witness for C9 at a concrete store. -/
theorem list_no_comments_returns_empty_witness :
    getBucket [("books", BTree.node [("b1", BTree.node [])])] "books" =
      some [("b1", BTree.node [])] ∧
    getBucket [("b1", BTree.node [])] "b1" = some [] ∧
    getBucket [] commentsKey = none ∧
    commentable.list ⟨"books", "b1"⟩ [("books", BTree.node [("b1", BTree.node [])])] =
      (some [], none) :=
  ⟨rfl, rfl, rfl, list_no_comments_returns_empty ⟨"books", "b1"⟩ _ _ _ rfl rfl rfl⟩

/-- Counterexample to C2 as stated: `setup` on the empty store with names
`["a", ""]` returns the empty-name failure, yet the container for the
earlier, successful name `"a"` is NOT present afterwards — the single
`db.Update` transaction rolled it back. -/
theorem setup_rolls_back_counterexample :
    (setup [] ["a", ""]).2 = some Err.bucketNameRequired ∧
    verify (setup [] ["a", ""]).1 "a" = false := by
  constructor
  · rfl
  · rfl

/-- **C2 (amended).** If any creation in `setup` fails, the call returns
the failure and the store afterwards is exactly the store before the
call: all creations run in one read-write transaction, which bolt rolls
back atomically on error, so no container created earlier in the call
survives and pre-existing state is untouched. -/
theorem setup_error_rolls_back (root : Entries) (names : List String) (e : Err)
    (h : (setup root names).2 = some e) : (setup root names).1 = root := by
  unfold setup at h ⊢
  cases hl : setupLoop root names with
  | ok root2 => rw [hl] at h; simp at h
  | error e2 => rfl

/-- Witness for the amended C2: with names `["a", ""]` the failure is
reported and the empty store is returned unchanged. -/
theorem setup_error_rolls_back_witness :
    (setup [] ["a", ""]).2 = some Err.bucketNameRequired ∧
    (setup [] ["a", ""]).1 = [] :=
  ⟨rfl, setup_error_rolls_back [] ["a", ""] Err.bucketNameRequired rfl⟩

/-- Counterexample to C4 as stated: with the type bucket `posts` present
and no instance bucket `k`, `save` does NOT fail — it succeeds and the
record is written (the source calls `CreateBucketIfNotExists` on the
instance bucket, and its own test expects exactly this). -/
theorem rating_save_autocreates_counterexample :
    (rateable.save ⟨"posts", "k"⟩ ⟨1, 2, 3, 4, 5⟩ [("posts", BTree.node [])]).2.2 = none ∧
    ratingRecAt (rateable.save ⟨"posts", "k"⟩ ⟨1, 2, 3, 4, 5⟩
      [("posts", BTree.node [])]).1 "posts" "k" =
      some (Data.ratingData ⟨1, 2, 3, 4, 5⟩) := by
  constructor
  · rfl
  · decide

/-- **C4 (amended).** `(*rateable).save` invoked when the top-level
resource-type container exists but the resource-instance sub-container
does not succeeds rather than failing: it auto-creates the instance
container and persists the clamped merge of the zero aggregate, so the
caller need not pre-provision the instance (only a non-empty key is
required). -/
theorem save_autocreates_instance (r : rateable) (root ktBucket : Entries) (d : rating)
    (hkind : getBucket root r.kind = some ktBucket)
    (habsent : lookupKey ktBucket r.key = none)
    (hkey : r.key ≠ "") :
    ∃ root2, rateable.save r d root = (root2, some (clampStep rating.zero d), none) ∧
      ratingRecAt root2 r.kind r.key =
        some (Data.ratingData (clampStep rating.zero d)) := by
  have hfresh : freshInstance ktBucket r.key = true := by
    unfold freshInstance; rw [habsent]
  obtain ⟨root2, hsave, hg⟩ := save_from_fresh r d root ktBucket hkind hfresh hkey
  exact ⟨root2, hsave, goodInstance_ratingRecAt _ _ _ _ hg⟩

/-- Witness for the amended C4 at a concrete store. -/
theorem save_autocreates_instance_witness :
    getBucket [("posts", BTree.node [])] "posts" = some [] ∧
    lookupKey [] "k" = none ∧
    ("k" : String) ≠ "" ∧
    ∃ root2, rateable.save ⟨"posts", "k"⟩ ⟨1, 2, 3, 4, 5⟩ [("posts", BTree.node [])] =
      (root2, some (clampStep rating.zero ⟨1, 2, 3, 4, 5⟩), none) ∧
      ratingRecAt root2 "posts" "k" =
        some (Data.ratingData (clampStep rating.zero ⟨1, 2, 3, 4, 5⟩)) :=
  ⟨rfl, rfl, by decide,
    save_autocreates_instance ⟨"posts", "k"⟩ _ [] ⟨1, 2, 3, 4, 5⟩ rfl rfl (by decide)⟩

/-- Reading back the freshly written comment entry through `get` after
the three-level write-back `save` performs. -/
theorem get_after_write (root cmBucket rB2 cs2 : Entries) (kind key id : String)
    (c : comment) (hdata : getData cs2 id = some (Data.commentData c)) :
    commentable.get ⟨kind, key⟩ id
      (setKey root kind (BTree.node (setKey cmBucket key
        (BTree.node (setKey rB2 commentsKey (BTree.node cs2)))))) = (some c, none) := by
  simp only [commentable.get, getBucket_setKey_self, hdata, decodeComment]

/-- The comment entry observation after the three-level write-back. -/
theorem commentAt_after_write (root cmBucket rB2 cs2 : Entries) (kind key id : String)
    (d : Data) (hdata : getData cs2 id = some d) :
    commentAt (setKey root kind (BTree.node (setKey cmBucket key
      (BTree.node (setKey rB2 commentsKey (BTree.node cs2)))))) kind key id = some d := by
  simp only [commentAt, getBucket_setKey_self, hdata]

/-- `(*commentable).save` succeeds whenever the type and instance buckets
exist, the `comments` slot is not occupied by a plain value, the id slot
is not occupied by a nested bucket, and the id is non-empty; the entity
is stored keyed by its id (overwriting any prior entry) and reads back. -/
theorem commentable_save_success (cm : commentable) (root cmBucket rBucket : Entries)
    (c : comment)
    (h1 : getBucket root cm.kind = some cmBucket)
    (h2 : getBucket cmBucket cm.key = some rBucket)
    (h3 : isLeafAt rBucket commentsKey = false)
    (h4 : commentSlotBucket rBucket c.id = false)
    (h5 : c.id ≠ "") :
    ∃ root2, commentable.save cm (some c) root = (root2, some c, none) ∧
      commentable.get cm c.id root2 = (some c, none) ∧
      commentAt root2 cm.kind cm.key c.id = some (Data.commentData c) := by
  unfold isLeafAt at h3
  cases hcl : lookupKey rBucket commentsKey with
  | none =>
    have hcb : createBucketIfNotExists rBucket commentsKey =
        Except.ok (setKey rBucket commentsKey (BTree.node []), []) := by
      unfold createBucketIfNotExists
      rw [if_neg commentsKey_ne_empty, hcl]
    have hput : putData [] c.id (Data.commentData c) =
        Except.ok [(c.id, BTree.leaf (Data.commentData c))] := by
      unfold putData
      rw [if_neg h5]
      rfl
    have hdata : getData [(c.id, BTree.leaf (Data.commentData c))] c.id =
        some (Data.commentData c) := by
      simp [getData, lookupKey]
    refine ⟨setKey root cm.kind (BTree.node (setKey cmBucket cm.key (BTree.node
      (setKey (setKey rBucket commentsKey (BTree.node [])) commentsKey
        (BTree.node [(c.id, BTree.leaf (Data.commentData c))]))))), ?_, ?_, ?_⟩
    · simp only [commentable.save, h1, h2, hcb, hput]
    · have := get_after_write root cmBucket (setKey rBucket commentsKey (BTree.node []))
        [(c.id, BTree.leaf (Data.commentData c))] cm.kind cm.key c.id c hdata
      cases cm
      exact this
    · exact commentAt_after_write root cmBucket _ _ cm.kind cm.key c.id _ hdata
  | some t =>
    cases t with
    | leaf d0 => rw [hcl] at h3; simp at h3
    | node cs =>
      have hgb : getBucket rBucket commentsKey = some cs := by
        unfold getBucket; rw [hcl]
      have hslot : isNodeAt cs c.id = false := by
        unfold commentSlotBucket at h4
        rw [hgb] at h4
        exact h4
      have hput : putData cs c.id (Data.commentData c) =
          Except.ok (setKey cs c.id (BTree.leaf (Data.commentData c))) := by
        unfold putData
        rw [if_neg h5]
        unfold isNodeAt at hslot
        cases hl2 : lookupKey cs c.id with
        | none => rfl
        | some t2 =>
          cases t2 with
          | leaf d1 => rfl
          | node cs1 => rw [hl2] at hslot; simp at hslot
      have hcb : createBucketIfNotExists rBucket commentsKey = Except.ok (rBucket, cs) := by
        unfold createBucketIfNotExists
        rw [if_neg commentsKey_ne_empty, hcl]
      have hdata : getData (setKey cs c.id (BTree.leaf (Data.commentData c))) c.id =
          some (Data.commentData c) := getData_setKey_leaf_self _ _ _
      refine ⟨setKey root cm.kind (BTree.node (setKey cmBucket cm.key (BTree.node
        (setKey rBucket commentsKey (BTree.node
          (setKey cs c.id (BTree.leaf (Data.commentData c)))))))), ?_, ?_, ?_⟩
      · simp only [commentable.save, h1, h2, hcb, hput]
      · have := get_after_write root cmBucket rBucket
          (setKey cs c.id (BTree.leaf (Data.commentData c))) cm.kind cm.key c.id c hdata
        cases cm
        exact this
      · exact commentAt_after_write root cmBucket _ _ cm.kind cm.key c.id _ hdata

/-- **C7.** For a commentable whose type and instance buckets exist, and
a non-nil comment with a non-empty identifier (whose slots are not
blocked by nested buckets, states no reachable store produces),
`save` (replace) followed by `get` (fetch) of that identifier returns a
comment with the same identifier and text value, whatever entry was
stored under the identifier before — the prior entry is overwritten. -/
theorem replace_then_fetch_roundtrip (cm : commentable) (root cmBucket rBucket : Entries)
    (c : comment)
    (h1 : getBucket root cm.kind = some cmBucket)
    (h2 : getBucket cmBucket cm.key = some rBucket)
    (h3 : isLeafAt rBucket commentsKey = false)
    (h4 : commentSlotBucket rBucket c.id = false)
    (h5 : c.id ≠ "") :
    ∃ root2, commentable.save cm (some c) root = (root2, some c, none) ∧
      commentable.get cm c.id root2 = (some c, none) := by
  obtain ⟨root2, hs, hg, _⟩ := commentable_save_success cm root cmBucket rBucket c h1 h2 h3 h4 h5
  exact ⟨root2, hs, hg⟩

/-- Witness for C7: the instance already holds an entry `X ↦ old`;
replacing with `{id := X, value := edited}` overwrites it and fetches
back `edited`. -/
theorem replace_then_fetch_roundtrip_witness :
    getBucket [("books", BTree.node [("b1", BTree.node [("comments", BTree.node
        [("X", BTree.leaf (Data.commentData ⟨"X", "old"⟩))])])])] "books" =
      some [("b1", BTree.node [("comments", BTree.node
        [("X", BTree.leaf (Data.commentData ⟨"X", "old"⟩))])])] ∧
    isLeafAt [("comments", BTree.node
      [("X", BTree.leaf (Data.commentData ⟨"X", "old"⟩))])] commentsKey = false ∧
    commentSlotBucket [("comments", BTree.node
      [("X", BTree.leaf (Data.commentData ⟨"X", "old"⟩))])] "X" = false ∧
    ∃ root2, commentable.save ⟨"books", "b1"⟩ (some ⟨"X", "edited"⟩)
        [("books", BTree.node [("b1", BTree.node [("comments", BTree.node
          [("X", BTree.leaf (Data.commentData ⟨"X", "old"⟩))])])])] =
        (root2, some ⟨"X", "edited"⟩, none) ∧
      commentable.get ⟨"books", "b1"⟩ "X" root2 = (some ⟨"X", "edited"⟩, none) :=
  ⟨rfl, rfl, rfl,
    replace_then_fetch_roundtrip ⟨"books", "b1"⟩ _ _ _ ⟨"X", "edited"⟩
      rfl rfl rfl rfl (by decide)⟩

/-- Counterexample to C3 as stated: with both containers present,
`(*commentable).add` called with a non-nil comment whose text value is
the empty string does NOT fail — it returns no error and an entry is
stored in the comments sub-container under the generated id. -/
theorem add_empty_text_counterexample :
    (commentable.add ⟨"books", "b1"⟩ "id1" (some ⟨"", ""⟩)
      [("books", BTree.node [("b1", BTree.node [])])]).2.2 = none ∧
    commentAt (commentable.add ⟨"books", "b1"⟩ "id1" (some ⟨"", ""⟩)
      [("books", BTree.node [("b1", BTree.node [])])]).1 "books" "b1" "id1" =
      some (Data.commentData ⟨"id1", ""⟩) := by
  constructor
  · rfl
  · decide

/-- **C3 (amended).** `(*commentable).add` rejects only a nil comment
(returning the empty-comment error and writing nothing); a non-nil
comment whose text value is the empty string is accepted and stored in
the comments sub-container under the freshly generated identifier.  The
empty-text rejection observed at the HTTP boundary is performed by the
handler (`handleAdd`) before `add` is ever called. -/
theorem add_rejects_only_nil (cm : commentable) (root cmBucket rBucket : Entries)
    (newId oldId v : String)
    (h1 : getBucket root cm.kind = some cmBucket)
    (h2 : getBucket cmBucket cm.key = some rBucket)
    (h3 : isLeafAt rBucket commentsKey = false)
    (h4 : commentSlotBucket rBucket newId = false)
    (h5 : newId ≠ "") :
    commentable.add cm newId none root = (root, none, some Err.commentEmpty) ∧
    ∃ root2, commentable.add cm newId (some ⟨oldId, v⟩) root =
        (root2, some ⟨newId, v⟩, none) ∧
      commentAt root2 cm.kind cm.key newId = some (Data.commentData ⟨newId, v⟩) := by
  refine ⟨rfl, ?_⟩
  obtain ⟨root2, hs, _, hc⟩ :=
    commentable_save_success cm root cmBucket rBucket ⟨newId, v⟩ h1 h2 h3 h4 h5
  exact ⟨root2, hs, hc⟩

/-- Witness for the amended C3: the concrete empty-text comment is
accepted and stored. -/
theorem add_rejects_only_nil_witness :
    getBucket [("books", BTree.node [("b1", BTree.node [])])] "books" =
      some [("b1", BTree.node [])] ∧
    isLeafAt [] commentsKey = false ∧
    commentSlotBucket [] "id1" = false ∧
    ("id1" : String) ≠ "" ∧
    (commentable.add ⟨"books", "b1"⟩ "id1" none
        [("books", BTree.node [("b1", BTree.node [])])] =
      ([("books", BTree.node [("b1", BTree.node [])])], none, some Err.commentEmpty) ∧
    ∃ root2, commentable.add ⟨"books", "b1"⟩ "id1" (some ⟨"", ""⟩)
        [("books", BTree.node [("b1", BTree.node [])])] =
        (root2, some ⟨"id1", ""⟩, none) ∧
      commentAt root2 "books" "b1" "id1" = some (Data.commentData ⟨"id1", ""⟩)) :=
  ⟨rfl, rfl, rfl, by decide,
    add_rejects_only_nil ⟨"books", "b1"⟩ _ _ _ "id1" "" ""
      rfl rfl rfl rfl (by decide)⟩

/-- **C8.** For a commentable whose type, instance and `comments` buckets
all exist (with bolt's unique keys), `remove id` followed by `get id`
fails with the comment-not-found error, whether or not an entry was
stored under the id. -/
theorem remove_then_fetch_not_found (cm : commentable) (id : String)
    (root cmBucket rBucket cs : Entries)
    (h1 : getBucket root cm.kind = some cmBucket)
    (h2 : getBucket cmBucket cm.key = some rBucket)
    (h3 : getBucket rBucket commentsKey = some cs)
    (hnd : (keysOf cs).Nodup) :
    commentable.get cm id (commentable.remove cm id root).1 =
      (none, some (Err.commentNotFound id cm.kind cm.key)) := by
  cases hl : lookupKey cs id with
  | some t =>
    cases t with
    | node cs0 =>
      have hdel : deleteKey cs id = Except.error Err.incompatibleValue := by
        unfold deleteKey; rw [hl]
      have hnone : getData cs id = none := by
        unfold getData; rw [hl]
      simp only [commentable.remove, h1, h2, h3, hdel, commentable.get, hnone]
    | leaf d0 =>
      have hdel : deleteKey cs id = Except.ok (delKey cs id) := by
        unfold deleteKey; rw [hl]
      have hnone : getData (delKey cs id) id = none := by
        unfold getData; rw [lookup_delKey_self cs id hnd]
      simp only [commentable.remove, h1, h2, h3, hdel, commentable.get,
        getBucket_setKey_self, hnone]
  | none =>
    have hdel : deleteKey cs id = Except.ok (delKey cs id) := by
      unfold deleteKey; rw [hl]
    have hnone : getData (delKey cs id) id = none := by
      unfold getData; rw [lookup_delKey_self cs id hnd]
    simp only [commentable.remove, h1, h2, h3, hdel, commentable.get,
      getBucket_setKey_self, hnone]

/-- Witness for C8 at a concrete store holding one comment. -/
theorem remove_then_fetch_not_found_witness :
    getBucket [("books", BTree.node [("b1", BTree.node [("comments", BTree.node
        [("c1", BTree.leaf (Data.commentData ⟨"c1", "hello"⟩))])])])] "books" =
      some [("b1", BTree.node [("comments", BTree.node
        [("c1", BTree.leaf (Data.commentData ⟨"c1", "hello"⟩))])])] ∧
    (keysOf [("c1", BTree.leaf (Data.commentData ⟨"c1", "hello"⟩))]).Nodup ∧
    commentable.get ⟨"books", "b1"⟩ "c1"
      (commentable.remove ⟨"books", "b1"⟩ "c1"
        [("books", BTree.node [("b1", BTree.node [("comments", BTree.node
          [("c1", BTree.leaf (Data.commentData ⟨"c1", "hello"⟩))])])])]).1 =
      (none, some (Err.commentNotFound "c1" "books" "b1")) :=
  ⟨rfl, by decide,
    remove_then_fetch_not_found ⟨"books", "b1"⟩ "c1" _ _ _ _ rfl rfl rfl (by decide)⟩

theorem deleteKey_ok (es : Entries) (k : String) (es2 : Entries)
    (h : deleteKey es k = Except.ok es2) : es2 = delKey es k := by
  unfold deleteKey at h
  cases hl : lookupKey es k with
  | none => rw [hl] at h; exact (Except.ok.inj h).symm
  | some t =>
    cases t with
    | leaf d => rw [hl] at h; exact (Except.ok.inj h).symm
    | node cs => rw [hl] at h; cases h

theorem ratingsKey_ne_commentsKey : ratingsKey ≠ commentsKey := by decide

/-- **C10.** `(*commentable).remove cKey` modifies at most the single
entry keyed `cKey` inside the `comments` sub-bucket of its own
(resource type, resource key) pair: every other comment entry of that
instance, the `ratings` record of the same instance, the whole top-level
bucket of every other resource type, and every other resource instance
of the same type are unchanged — both when `remove` succeeds and when it
returns an error (the transaction rolls back). -/
theorem remove_frame (cm : commentable) (cKey : String) (root : Entries) :
    (∀ id, id ≠ cKey →
      commentAt (commentable.remove cm cKey root).1 cm.kind cm.key id =
        commentAt root cm.kind cm.key id) ∧
    ratingRecAt (commentable.remove cm cKey root).1 cm.kind cm.key =
      ratingRecAt root cm.kind cm.key ∧
    (∀ kind2, kind2 ≠ cm.kind →
      lookupKey (commentable.remove cm cKey root).1 kind2 = lookupKey root kind2) ∧
    (∀ key2, key2 ≠ cm.key →
      (getBucket (commentable.remove cm cKey root).1 cm.kind).bind
          (fun b => lookupKey b key2) =
        (getBucket root cm.kind).bind (fun b => lookupKey b key2)) := by
  cases h1 : getBucket root cm.kind with
  | none =>
    have hres : commentable.remove cm cKey root =
        (root, some (Err.commentableTypeNotFound cm.kind)) := by
      simp only [commentable.remove, h1]
    rw [hres]
    exact ⟨fun id _ => rfl, rfl, fun kind2 _ => rfl, fun key2 _ => by simp [h1]⟩
  | some cmBucket =>
    cases h2 : getBucket cmBucket cm.key with
    | none =>
      have hres : commentable.remove cm cKey root =
          (root, some (Err.commentableNotFound cm.key cm.kind)) := by
        simp only [commentable.remove, h1, h2]
      rw [hres]
      exact ⟨fun id _ => rfl, rfl, fun kind2 _ => rfl, fun key2 _ => by simp [h1]⟩
    | some rBucket =>
      cases h3 : getBucket rBucket commentsKey with
      | none =>
        have hres : commentable.remove cm cKey root =
            (root, some (Err.removeCommentNotFound cKey cm.kind cm.key)) := by
          simp only [commentable.remove, h1, h2, h3]
        rw [hres]
        exact ⟨fun id _ => rfl, rfl, fun kind2 _ => rfl, fun key2 _ => by simp [h1]⟩
      | some cs =>
        cases hdel : deleteKey cs cKey with
        | error e =>
          have hres : commentable.remove cm cKey root = (root, some e) := by
            simp only [commentable.remove, h1, h2, h3, hdel]
          rw [hres]
          exact ⟨fun id _ => rfl, rfl, fun kind2 _ => rfl, fun key2 _ => by simp [h1]⟩
        | ok cs2 =>
          have hcs2 : cs2 = delKey cs cKey := deleteKey_ok cs cKey cs2 hdel
          subst hcs2
          have hres : commentable.remove cm cKey root =
              (setKey root cm.kind (BTree.node (setKey cmBucket cm.key
                (BTree.node (setKey rBucket commentsKey
                  (BTree.node (delKey cs cKey)))))), none) := by
            simp only [commentable.remove, h1, h2, h3, hdel]
          rw [hres]
          refine ⟨?_, ?_, ?_, ?_⟩
          · intro id hid
            simp only [commentAt, getBucket_setKey_self, h1, h2, h3]
            exact getData_delKey_ne cs hid
          · simp only [ratingRecAt, getBucket_setKey_self, h1, h2]
            exact getData_setKey_ne rBucket _ ratingsKey_ne_commentsKey
          · intro kind2 hk
            exact lookup_setKey_ne root _ hk
          · intro key2 hk
            simp [getBucket_setKey_self, h1, lookup_setKey_ne cmBucket _ hk]

/-- Witness for C10: removing `c1` leaves the sibling entry `c2` and the
ratings record of the same instance untouched. -/
theorem remove_frame_witness :
    (("c2" : String) ≠ "c1" ∧
      commentAt (commentable.remove ⟨"books", "b1"⟩ "c1"
        [("books", BTree.node [("b1", BTree.node [("comments", BTree.node
          [("c1", BTree.leaf (Data.commentData ⟨"c1", "one"⟩)),
           ("c2", BTree.leaf (Data.commentData ⟨"c2", "two"⟩))]),
          ("ratings", BTree.leaf (Data.ratingData ⟨1, 2, 3, 4, 5⟩))])]),
         ("authors", BTree.node [])]).1 "books" "b1" "c2" =
      commentAt [("books", BTree.node [("b1", BTree.node [("comments", BTree.node
          [("c1", BTree.leaf (Data.commentData ⟨"c1", "one"⟩)),
           ("c2", BTree.leaf (Data.commentData ⟨"c2", "two"⟩))]),
          ("ratings", BTree.leaf (Data.ratingData ⟨1, 2, 3, 4, 5⟩))])]),
         ("authors", BTree.node [])] "books" "b1" "c2") ∧
    ratingRecAt (commentable.remove ⟨"books", "b1"⟩ "c1"
        [("books", BTree.node [("b1", BTree.node [("comments", BTree.node
          [("c1", BTree.leaf (Data.commentData ⟨"c1", "one"⟩)),
           ("c2", BTree.leaf (Data.commentData ⟨"c2", "two"⟩))]),
          ("ratings", BTree.leaf (Data.ratingData ⟨1, 2, 3, 4, 5⟩))])]),
         ("authors", BTree.node [])]).1 "books" "b1" =
      ratingRecAt [("books", BTree.node [("b1", BTree.node [("comments", BTree.node
          [("c1", BTree.leaf (Data.commentData ⟨"c1", "one"⟩)),
           ("c2", BTree.leaf (Data.commentData ⟨"c2", "two"⟩))]),
          ("ratings", BTree.leaf (Data.ratingData ⟨1, 2, 3, 4, 5⟩))])]),
         ("authors", BTree.node [])] "books" "b1" :=
  ⟨⟨by decide, (remove_frame ⟨"books", "b1"⟩ "c1" _).1 "c2" (by decide)⟩,
    (remove_frame ⟨"books", "b1"⟩ "c1" _).2.1⟩

/-! ## Claim C5: non-negativity invariant over all reachable states -/

theorem putData_ok (es : Entries) (k : String) (d : Data) (es2 : Entries)
    (h : putData es k d = Except.ok es2) : es2 = setKey es k (BTree.leaf d) := by
  unfold putData at h
  by_cases hk : k = ""
  · rw [if_pos hk] at h; cases h
  · rw [if_neg hk] at h
    cases hl : lookupKey es k with
    | none => rw [hl] at h; exact (Except.ok.inj h).symm
    | some t =>
      cases t with
      | leaf d2 => rw [hl] at h; exact (Except.ok.inj h).symm
      | node cs => rw [hl] at h; cases h

theorem createBucket_ok_cases (es : Entries) (name : String) (es2 cs : Entries)
    (h : createBucketIfNotExists es name = Except.ok (es2, cs)) :
    (es2 = es ∧ lookupKey es name = some (BTree.node cs)) ∨
    (es2 = setKey es name (BTree.node []) ∧ cs = [] ∧ lookupKey es name = none) := by
  unfold createBucketIfNotExists at h
  by_cases hn : name = ""
  · rw [if_pos hn] at h; cases h
  · rw [if_neg hn] at h
    cases hl : lookupKey es name with
    | none =>
      rw [hl] at h
      obtain ⟨ha, hb⟩ := Prod.mk.inj (Except.ok.inj h)
      exact Or.inr ⟨ha.symm, hb.symm, rfl⟩
    | some t =>
      cases t with
      | leaf d0 => rw [hl] at h; cases h
      | node cs0 =>
        rw [hl] at h
        obtain ⟨ha, hb⟩ := Prod.mk.inj (Except.ok.inj h)
        exact Or.inl ⟨ha.symm, by rw [hb]⟩

/-- One operation of the rating service against the store. -/
inductive Op where
  | opSetup (names : List String)
  | opSave (kind key : String) (rt : rating)
  | opGet (kind key : String)

/-- The store state after one operation (`get` runs in a read-only
`db.View` and leaves the store unchanged). -/
def applyOp (root : Entries) : Op → Entries
  | Op.opSetup names => (setup root names).1
  | Op.opSave kind key rt => (rateable.save ⟨kind, key⟩ rt root).1
  | Op.opGet _ _ => root

/-- The store after a sequence of operations. -/
def runOps : Entries → List Op → Entries
  | root, [] => root
  | root, op :: ops => runOps (applyOp root op) ops

/-- Every ratings record present in the store decodes to an aggregate
whose five counters are all non-negative. -/
def storeNonneg (root : Entries) : Prop :=
  ∀ kind key d, ratingRecAt root kind key = some d → ratingNonneg (decodeRating d)

theorem setupLoop_ratingRecAt (names : List String) :
    ∀ root root2, setupLoop root names = Except.ok root2 →
      ∀ kind key d, ratingRecAt root2 kind key = some d →
        ratingRecAt root kind key = some d := by
  induction names with
  | nil =>
    intro root root2 h kind key d hd
    have he : root = root2 := Except.ok.inj h
    rw [he]; exact hd
  | cons b rest ih =>
    intro root root2 h kind key d hd
    unfold setupLoop at h
    cases hc : createBucketIfNotExists root b with
    | error e => rw [hc] at h; cases h
    | ok pr =>
      obtain ⟨root1, cs⟩ := pr
      rw [hc] at h
      have hmid := ih root1 root2 h kind key d hd
      rcases createBucket_ok_cases root b root1 cs hc with ⟨he, _⟩ | ⟨he, _, hl⟩
      · rw [he] at hmid; exact hmid
      · subst he
        by_cases hk : kind = b
        · subst hk
          have hz : ratingRecAt (setKey root kind (BTree.node [])) kind key = none := by
            simp only [ratingRecAt, getBucket_setKey_self]
            rfl
          rw [hz] at hmid; cases hmid
        · simp only [ratingRecAt] at hmid ⊢
          rw [getBucket_setKey_ne root _ hk] at hmid
          exact hmid

theorem setup_preserves_storeNonneg (root : Entries) (names : List String)
    (h : storeNonneg root) : storeNonneg (setup root names).1 := by
  cases hl : setupLoop root names with
  | ok root2 =>
    have hres : (setup root names).1 = root2 := by unfold setup; rw [hl]
    rw [hres]
    intro kind key d hd
    exact h kind key d (setupLoop_ratingRecAt names root root2 hl kind key d hd)
  | error e =>
    have hres : (setup root names).1 = root := by unfold setup; rw [hl]
    rw [hres]; exact h

/-- After `save`'s write-back, every stored ratings record is either the
freshly written (clamped, hence non-negative) one or one that was
already present. -/
theorem storeNonneg_after_save_write (root ktB ktB2 rB : Entries) (r : rateable)
    (newR : rating) (h : storeNonneg root)
    (h1 : getBucket root r.kind = some ktB)
    (h2 : createBucketIfNotExists ktB r.key = Except.ok (ktB2, rB))
    (hnn : ratingNonneg newR) :
    storeNonneg (setKey root r.kind (BTree.node (setKey ktB2 r.key
      (BTree.node (setKey rB ratingsKey (BTree.leaf (Data.ratingData newR))))))) := by
  intro kind2 key2 d hd
  by_cases hk : kind2 = r.kind
  · subst hk
    by_cases hk2 : key2 = r.key
    · subst hk2
      simp only [ratingRecAt, getBucket_setKey_self] at hd
      rw [getData_setKey_leaf_self] at hd
      have hde : Data.ratingData newR = d := Option.some.inj hd
      rw [← hde]
      exact hnn
    · simp only [ratingRecAt, getBucket_setKey_self] at hd
      rw [getBucket_setKey_ne ktB2 _ hk2] at hd
      have hd2 : (match getBucket ktB key2 with
          | none => none
          | some rB0 => getData rB0 ratingsKey) = some d := by
        rcases createBucket_ok_cases ktB r.key ktB2 rB h2 with ⟨he, _⟩ | ⟨he, _, _⟩
        · rw [he] at hd; exact hd
        · rw [he] at hd
          rw [getBucket_setKey_ne ktB _ hk2] at hd
          exact hd
      apply h r.kind key2 d
      simp only [ratingRecAt, h1]
      exact hd2
  · apply h kind2 key2 d
    simp only [ratingRecAt] at hd ⊢
    rw [getBucket_setKey_ne root _ hk] at hd
    exact hd

theorem save_preserves_storeNonneg (r : rateable) (rt : rating) (root : Entries)
    (h : storeNonneg root) : storeNonneg (rateable.save r rt root).1 := by
  cases h1 : getBucket root r.kind with
  | none =>
    have hres : (rateable.save r rt root).1 = root := by
      simp only [rateable.save, h1]
    rw [hres]; exact h
  | some ktB =>
    cases h2 : createBucketIfNotExists ktB r.key with
    | error e =>
      have hres : (rateable.save r rt root).1 = root := by
        simp only [rateable.save, h1, h2]
      rw [hres]; exact h
    | ok pr =>
      obtain ⟨ktB2, rB⟩ := pr
      cases hgd : getData rB ratingsKey with
      | none =>
        cases h3 : putData rB ratingsKey
            (Data.ratingData ((rating.zero.add rt).ensureNotNegative)) with
        | error e =>
          have hres : (rateable.save r rt root).1 = root := by
            simp only [rateable.save, h1, h2, hgd, h3]
          rw [hres]; exact h
        | ok rB2 =>
          have hres : (rateable.save r rt root).1 =
              setKey root r.kind (BTree.node (setKey ktB2 r.key (BTree.node rB2))) := by
            simp only [rateable.save, h1, h2, hgd, h3]
          rw [hres, putData_ok rB ratingsKey _ rB2 h3]
          exact storeNonneg_after_save_write root ktB ktB2 rB r _ h h1 h2
            (ensureNotNegative_nonneg _)
      | some d0 =>
        cases h3 : putData rB ratingsKey
            (Data.ratingData (((decodeRating d0).add rt).ensureNotNegative)) with
        | error e =>
          have hres : (rateable.save r rt root).1 = root := by
            simp only [rateable.save, h1, h2, hgd, h3]
          rw [hres]; exact h
        | ok rB2 =>
          have hres : (rateable.save r rt root).1 =
              setKey root r.kind (BTree.node (setKey ktB2 r.key (BTree.node rB2))) := by
            simp only [rateable.save, h1, h2, hgd, h3]
          rw [hres, putData_ok rB ratingsKey _ rB2 h3]
          exact storeNonneg_after_save_write root ktB ktB2 rB r _ h h1 h2
            (ensureNotNegative_nonneg _)

theorem empty_storeNonneg : storeNonneg [] := by
  intro kind key d hd
  simp [ratingRecAt, getBucket, lookupKey] at hd

theorem runOps_preserves_storeNonneg (ops : List Op) :
    ∀ root, storeNonneg root → storeNonneg (runOps root ops) := by
  induction ops with
  | nil => intro root h; exact h
  | cons op rest ih =>
    intro root h
    refine ih (applyOp root op) ?_
    cases op with
    | opSetup names => exact setup_preserves_storeNonneg root names h
    | opSave kind key rt => exact save_preserves_storeNonneg ⟨kind, key⟩ rt root h
    | opGet kind key => exact h

/-- **C5.** On every store state reachable from the empty store by any
sequence of `setup`, rating `save` and rating `get` operations, the
ratings record stored for any resource instance, whenever present,
decodes to an aggregate whose five counters are all non-negative. -/
theorem reachable_records_nonneg (ops : List Op) : storeNonneg (runOps [] ops) :=
  runOps_preserves_storeNonneg ops [] empty_storeNonneg
